import Mathlib

/-!
Verification development for the `ai-gateway-microservices` repository.

The shallow embedding below translates the request-dispatch pipeline of the
gateway into Lean:

* `Gateway.TokenBucket` / `Gateway.RateLimiter` embed
  `pkg/ratelimit/token_bucket.go`.  Go's `int64` token counts are modelled
  as `ℤ`, the `float64` refill rate and wall-clock seconds as `ℚ`; the Go
  conversion `int64(x)` (truncation toward zero) is `Gateway.goTrunc`.
  Time is passed explicitly: every operation takes the current timestamp
  `now : ℚ` (seconds) instead of reading `time.Now()`.
* `Gateway.getProviderFromModel`, `Gateway.generateCacheKey` and
  `Gateway.HandleChatCompletion` embed `pkg/router/router.go`.  The handler
  is a pure function from the router state, the current time, the caller id
  and the parsed body to a result, the updated rate-limiter state and the
  ordered trace of pipeline events (rate-limit check, cache get/set,
  backend call).
* External collaborators (backends, the Redis store) are oracles: a backend
  is a function `ChatRequest → Except String ChatResponse`, the cache store
  an optional read oracle (`none` models `redisCache == nil`, the state
  `main.go` leaves the router in when Redis is unreachable at startup).
-/

namespace Gateway

/-- Go's `int64(x)` conversion of a nonnegative-or-negative rational:
truncation toward zero (`pkg/ratelimit/token_bucket.go` line 56,
`tokensToAdd := int64(elapsed * tb.refillRate)`). -/
def goTrunc (q : ℚ) : ℤ :=
  if 0 ≤ q then ⌊q⌋ else -⌊-q⌋

/-- Embeds `TokenBucket` from `pkg/ratelimit/token_bucket.go`: capacity and tokens
are Go `int64` (modelled as `ℤ`), `refillRate` a `float64` (modelled as `ℚ`,
tokens per second), `lastRefill` a timestamp in seconds (modelled as `ℚ`).
The mutex only serialises access and has no functional content. -/
structure TokenBucket where
  capacity : ℤ
  tokens : ℤ
  refillRate : ℚ
  lastRefill : ℚ
  deriving DecidableEq, Repr

/-- Embeds `NewTokenBucket(capacity, refillRate)`: the bucket starts full and
`lastRefill` is the creation time (`time.Now()`, passed here as `now`). -/
def NewTokenBucket (capacity : ℤ) (refillRate : ℚ) (now : ℚ) : TokenBucket :=
  { capacity := capacity
    tokens := capacity
    refillRate := refillRate
    lastRefill := now }

/-- Embeds `(tb *TokenBucket) refill()`: compute
`tokensToAdd = int64(elapsed * refillRate)`; when positive, add it, clamp
the count to `capacity` and advance `lastRefill` to `now`; otherwise leave
the bucket untouched. -/
def TokenBucket.refill (tb : TokenBucket) (now : ℚ) : TokenBucket :=
  let elapsed : ℚ := now - tb.lastRefill
  let tokensToAdd : ℤ := goTrunc (elapsed * tb.refillRate)
  if 0 < tokensToAdd then
    { tb with
      tokens := min (tb.tokens + tokensToAdd) tb.capacity
      lastRefill := now }
  else
    tb

/-- Embeds `(tb *TokenBucket) Allow(tokens)`: refill, then consume `cost` tokens
and admit when enough are available, otherwise reject without paying.
Returns the admission decision and the updated bucket. -/
def TokenBucket.Allow (tb : TokenBucket) (now : ℚ) (cost : ℤ) : Bool × TokenBucket :=
  let tb' := tb.refill now
  if cost ≤ tb'.tokens then
    (true, { tb' with tokens := tb'.tokens - cost })
  else
    (false, tb')

/-- Embeds `(tb *TokenBucket) Available()`: refill, then report the token count.
Returns the count and the (possibly refilled) bucket state. -/
def TokenBucket.Available (tb : TokenBucket) (now : ℚ) : ℤ × TokenBucket :=
  let tb' := tb.refill now
  (tb'.tokens, tb')

/-- Embeds `RateLimiter` from `pkg/ratelimit/token_bucket.go`: per-caller buckets
(the Go map is modelled as an association list keyed by user id) plus the
default capacity and refill rate used for lazily created buckets. -/
structure RateLimiter where
  buckets : List (String × TokenBucket)
  defaultCapacity : ℤ
  defaultRefillRate : ℚ
  deriving DecidableEq, Repr

/-- Embeds `NewRateLimiter(capacity, refillRate)`: empty registry with defaults. -/
def NewRateLimiter (capacity : ℤ) (refillRate : ℚ) : RateLimiter :=
  { buckets := []
    defaultCapacity := capacity
    defaultRefillRate := refillRate }

/-- Association-list lookup standing for the Go map read
`rl.buckets[userID]`. -/
def lookupBucket (bs : List (String × TokenBucket)) (userID : String) :
    Option TokenBucket :=
  match bs with
  | [] => none
  | (k, b) :: rest => if k = userID then some b else lookupBucket rest userID

/-- Association-list store standing for the Go map write
`rl.buckets[userID] = bucket` (replaces an existing entry, else appends). -/
def storeBucket (bs : List (String × TokenBucket)) (userID : String)
    (b : TokenBucket) : List (String × TokenBucket) :=
  match bs with
  | [] => [(userID, b)]
  | (k, b0) :: rest =>
      if k = userID then (k, b) :: rest
      else (k, b0) :: storeBucket rest userID b

/-- Embeds `(rl *RateLimiter) getBucket(userID)`: return the caller's bucket,
creating it from the defaults on first use (the double-checked locking in
the source only guards this creation and has no further functional
content).  Also returns the registry with the bucket present. -/
def RateLimiter.getBucket (rl : RateLimiter) (userID : String) (now : ℚ) :
    TokenBucket × RateLimiter :=
  match lookupBucket rl.buckets userID with
  | some b => (b, rl)
  | none =>
      let b := NewTokenBucket rl.defaultCapacity rl.defaultRefillRate now
      (b, { rl with buckets := storeBucket rl.buckets userID b })

/-- Embeds `(rl *RateLimiter) Allow(userID, tokens)`: fetch (or create) the
caller's bucket and run its `Allow`; the in-place mutation of the Go bucket
pointer becomes writing the updated bucket back into the registry. -/
def RateLimiter.Allow (rl : RateLimiter) (now : ℚ) (userID : String)
    (cost : ℤ) : Bool × RateLimiter :=
  let br := rl.getBucket userID now
  let ob := br.1.Allow now cost
  (ob.1, { br.2 with buckets := storeBucket br.2.buckets userID ob.2 })

/-- Embeds `(rl *RateLimiter) Stats(userID)`: fetch (or create) the caller's
bucket and report `{available, capacity}`; `Available` refills, so the
updated bucket is written back. -/
def RateLimiter.Stats (rl : RateLimiter) (now : ℚ) (userID : String) :
    (ℤ × ℤ) × RateLimiter :=
  let br := rl.getBucket userID now
  let ab := br.1.Available now
  ((ab.1, br.1.capacity), { br.2 with buckets := storeBucket br.2.buckets userID ab.2 })

/-- Embeds `providers.Message` (`{role, content}` per the spec data model and the
`providers.Message` literals in the repository's tests). -/
structure Message where
  role : String
  content : String
  deriving DecidableEq, Repr

/-- Modelled from the spec: the `providers.ChatRequest` type.  The file of
`pkg/providers` declaring it is not under `src/` (only its callers and the
test literals are); the spec's data model gives
`{model, messages, temperature?, max_tokens?, stream}`. -/
structure ChatRequest where
  model : String
  messages : List Message
  temperature : ℚ
  maxTokens : ℤ
  stream : Bool
  deriving DecidableEq, Repr

/-- Embeds `providers.Usage` (field shape taken from the response literals in the
repository's tests). -/
structure Usage where
  promptTokens : ℤ
  completionTokens : ℤ
  totalTokens : ℤ
  deriving DecidableEq, Repr

/-- Embeds `providers.Choice`. -/
structure Choice where
  index : ℤ
  message : Message
  finishReason : String
  deriving DecidableEq, Repr

/-- Embeds `providers.ChatResponse` (`{id, object-tag, created, model, choices,
usage}` per the spec data model and the test literals). -/
structure ChatResponse where
  id : String
  object : String
  created : ℤ
  model : String
  choices : List Choice
  usage : Usage
  deriving DecidableEq, Repr

/-- Self-delimiting encoding of a string: length, then the code points. -/
def encStr (s : String) : List Nat :=
  s.data.length :: s.data.map Char.toNat

/-- Self-delimiting encoding of an integer: sign marker, then magnitude. -/
def encInt (i : ℤ) : List Nat :=
  [if i < 0 then 1 else 0, i.natAbs]

/-- Self-delimiting encoding of a rational: numerator, then denominator. -/
def encRat (q : ℚ) : List Nat :=
  encInt q.num ++ [q.den]

/-- Encoding of one message: role, then content. -/
def encMsg (m : Message) : List Nat :=
  encStr m.role ++ encStr m.content

/-- Concatenated encoding of a message list body. -/
def encMsgs : List Message → List Nat
  | [] => []
  | m :: ms => encMsg m ++ encMsgs ms

/-- Modelled from the spec: the canonical serialization of a chat request
covering every field except `stream` (model, messages, temperature,
max_tokens, in that order).  The `providers.ChatRequest` declaration that
fixes the JSON field layout the source feeds to `json.Marshal` in
`generateCacheKey` is not under `src/`; the spec defines the fingerprint as
a digest "over the canonical serialization of all fields except `stream`",
so the serialization is modelled as a canonical self-delimiting encoding of
exactly those fields. -/
def serializeRequest (req : ChatRequest) : List Nat :=
  encStr req.model ++ (req.messages.length :: encMsgs req.messages)
    ++ encRat req.temperature ++ encInt req.maxTokens

/-- Embeds `generateCacheKey` from `pkg/router/router.go`: the cache key is a
deterministic digest of the canonical serialization (the source applies
SHA-256, hex-encodes and prefixes `chat:`; the digest step is deterministic
in its input, so keys are modelled by the digest input itself). -/
def generateCacheKey (req : ChatRequest) : List Nat :=
  serializeRequest req

/-- Decoder for `encStr`: read the length, then that many code points. -/
def decStr (l : List Nat) : Option (String × List Nat) :=
  match l with
  | [] => none
  | n :: rest =>
      if n ≤ rest.length then
        some (String.mk ((rest.take n).map Char.ofNat), rest.drop n)
      else none

/-- Decoder for `encInt`. -/
def decInt (l : List Nat) : Option (ℤ × List Nat) :=
  match l with
  | s :: m :: rest =>
      some ((if s = 1 then -(m : ℤ) else (m : ℤ)), rest)
  | _ => none

/-- Decoder for `encRat`, rebuilding the rational from numerator and
denominator. -/
def decRat (l : List Nat) : Option (ℚ × List Nat) :=
  match decInt l with
  | some (n, d :: rest) => some ((n : ℚ) / (d : ℚ), rest)
  | _ => none

/-- Decoder for `encMsg`. -/
def decMsg (l : List Nat) : Option (Message × List Nat) :=
  match decStr l with
  | some (role, l₁) =>
      match decStr l₁ with
      | some (content, l₂) => some (⟨role, content⟩, l₂)
      | none => none
  | none => none

/-- Decoder for a counted sequence of messages. -/
def decMsgs : Nat → List Nat → Option (List Message × List Nat)
  | 0, l => some ([], l)
  | n + 1, l =>
      match decMsg l with
      | some (m, l₁) =>
          match decMsgs n l₁ with
          | some (ms, l₂) => some (m :: ms, l₂)
          | none => none
      | none => none

/-- Decoder for `serializeRequest`, recovering every serialized field. -/
def decRequest (l : List Nat) :
    Option ((String × List Message × ℚ × ℤ) × List Nat) :=
  match decStr l with
  | some (model, l₁) =>
      match l₁ with
      | [] => none
      | n :: l₂ =>
          match decMsgs n l₂ with
          | some (msgs, l₃) =>
              match decRat l₃ with
              | some (temp, l₄) =>
                  match decInt l₄ with
                  | some (mt, l₅) => some ((model, msgs, temp, mt), l₅)
                  | none => none
              | none => none
          | none => none
  | none => none

/-- A backend capability (`providers.Provider.ChatCompletion`): one
operation from a request to a response or an error. -/
def Backend : Type :=
  ChatRequest → Except String ChatResponse

/-- Outcome of a cache `Get` as the dispatcher observes it: a hit
(`err == nil`), the distinguished miss (`cache.ErrCacheMiss`), or any other
store error (an unreachable Redis, an unmarshal failure, ...). -/
inductive CacheGetResult where
  | hit (resp : ChatResponse)
  | miss
  | storeError (msg : String)
  deriving DecidableEq, Repr

/-- Read/write oracle for the Redis store behind `cache.RedisCache`: what
`Get` returns per key, and whether `Set` fails (the dispatcher discards the
`Set` result either way). -/
structure CacheStore where
  get : List Nat → CacheGetResult
  setFails : Bool

/-- One pipeline event of the dispatcher, in invocation order: the
rate-limiter consultation (with its verdict), a cache read, a backend
invocation (with the resolved provider name), a cache write. -/
inductive Event where
  | rateLimit (userID : String) (admitted : Bool)
  | cacheGet (key : List Nat)
  | backendCall (provider : String)
  | cacheSet (key : List Nat)
  deriving DecidableEq, Repr

/-- Terminal outcome of `HandleChatCompletion`, one constructor per
response the source can write: 401 missing user id, 429 rate limited,
400 bind error (malformed request), 400 unsupported model, 500 backend
error, 200 with a response body, and the nil-pointer panic the source hits
in `r.cache.Get` when `main.go` left the router with a `nil` cache. -/
inductive GatewayResult where
  | missingUserID
  | rateLimited
  | malformedRequest
  | unsupportedModel (model : String)
  | backendError (msg : String)
  | ok (resp : ChatResponse)
  | panicNilCache
  deriving DecidableEq, Repr

/-- Embeds `router.Router`: registered providers (name → backend, an association
list standing for the Go map), the cache handle (`none` models
`redisCache == nil` after a failed Redis ping in `main.go`), and the rate
limiter. -/
structure Router where
  providers : List (String × Backend)
  cache : Option CacheStore
  rateLimiter : RateLimiter

/-- Association-list lookup standing for `r.providers[providerName]`. -/
def lookupProvider (ps : List (String × Backend)) (name : String) :
    Option Backend :=
  match ps with
  | [] => none
  | (k, b) :: rest => if k = name then some b else lookupProvider rest name

/-- Embeds `getProviderFromModel` from `pkg/router/router.go`: first-match over
the prefix rules `gpt-` → `openai`, `claude-` → `anthropic`
(`strings.HasPrefix`), and the hardcoded default `openai` otherwise. -/
def getProviderFromModel (model : String) : String :=
  if "gpt-".data.isPrefixOf model.data then "openai"
  else if "claude-".data.isPrefixOf model.data then "anthropic"
  else "openai"

/-- Embeds `HandleChatCompletion` from `pkg/router/router.go`, as a pure function
of the router state, the current time, the caller id (empty string models a
missing `X-User-ID` header) and the parsed body (`none` models a
`ShouldBindJSON` failure).  Returns the terminal outcome, the rate-limiter
state after the call and the ordered trace of pipeline events, mirroring
the source's statement order: identity check, `rateLimiter.Allow`, body
binding, provider resolution and registry lookup, cache `Get` for
non-streaming requests, backend invocation, fire-and-forget cache `Set`. -/
def HandleChatCompletion (rt : Router) (now : ℚ) (userID : String)
    (body : Option ChatRequest) : GatewayResult × RateLimiter × List Event :=
  if userID = "" then
    (GatewayResult.missingUserID, rt.rateLimiter, [])
  else
    let ar := rt.rateLimiter.Allow now userID 1
    let rl' := ar.2
    if ar.1 = false then
      (GatewayResult.rateLimited, rl', [Event.rateLimit userID false])
    else
      match body with
      | none =>
          (GatewayResult.malformedRequest, rl', [Event.rateLimit userID true])
      | some req =>
          let providerName := getProviderFromModel req.model
          match lookupProvider rt.providers providerName with
          | none =>
              (GatewayResult.unsupportedModel req.model, rl',
               [Event.rateLimit userID true])
          | some backend =>
              if req.stream = false then
                match rt.cache with
                | none =>
                    -- `r.cache.Get` dereferences the nil Redis client.
                    (GatewayResult.panicNilCache, rl',
                     [Event.rateLimit userID true])
                | some store =>
                    let key := generateCacheKey req
                    match store.get key with
                    | CacheGetResult.hit resp =>
                        (GatewayResult.ok resp, rl',
                         [Event.rateLimit userID true, Event.cacheGet key])
                    | _ =>
                        match backend req with
                        | Except.error e =>
                            (GatewayResult.backendError e, rl',
                             [Event.rateLimit userID true, Event.cacheGet key,
                              Event.backendCall providerName])
                        | Except.ok resp =>
                            (GatewayResult.ok resp, rl',
                             [Event.rateLimit userID true, Event.cacheGet key,
                              Event.backendCall providerName,
                              Event.cacheSet key])
              else
                match backend req with
                | Except.error e =>
                    (GatewayResult.backendError e, rl',
                     [Event.rateLimit userID true,
                      Event.backendCall providerName])
                | Except.ok resp =>
                    (GatewayResult.ok resp, rl',
                     [Event.rateLimit userID true,
                      Event.backendCall providerName])

/-- Iterated `Allow(1)` calls at a fixed timestamp: the list of admission
decisions and the final bucket. -/
def allowN : ℕ → ℚ → TokenBucket → List Bool × TokenBucket
  | 0, _, tb => ([], tb)
  | n + 1, now, tb =>
      let (ok, tb') := tb.Allow now 1
      let (oks, tb'') := allowN n now tb'
      (ok :: oks, tb'')

/-- Iterated `Available` calls at a fixed timestamp (only the state effect
matters: each call refills). -/
def availIter : ℕ → ℚ → TokenBucket → TokenBucket
  | 0, _, tb => tb
  | k + 1, now, tb => availIter k now (tb.Available now).2

/-- One call of the bucket's public interface, with its timestamp. -/
inductive BucketOp where
  | allow (now : ℚ) (cost : ℤ)
  | available (now : ℚ)
  deriving DecidableEq, Repr

/-- Runs a call sequence against a bucket, threading the state. -/
def runOps : List BucketOp → TokenBucket → TokenBucket
  | [], tb => tb
  | BucketOp.allow now c :: ops, tb => runOps ops (tb.Allow now c).2
  | BucketOp.available now :: ops, tb => runOps ops (tb.Available now).2

/-- States that an operation consumes a nonnegative cost (every call site
in the repository uses cost 1). -/
def costNonneg : BucketOp → Prop
  | BucketOp.allow _ c => 0 ≤ c
  | BucketOp.available _ => True

/-- Concrete response used by mock backends in counterexample runs. -/
def mockResponse : ChatResponse :=
  { id := "resp-1"
    object := "chat.completion"
    created := 0
    model := "any"
    choices := []
    usage := { promptTokens := 0, completionTokens := 0, totalTokens := 0 } }

/-- Concrete response standing for an entry already in the cache. -/
def cachedResponse : ChatResponse :=
  { id := "cached-1"
    object := "chat.completion"
    created := 0
    model := "any"
    choices := []
    usage := { promptTokens := 0, completionTokens := 0, totalTokens := 0 } }

/-- A backend that always succeeds with `mockResponse`. -/
def okBackend : Backend :=
  fun _ => Except.ok mockResponse

/-- A store on which every lookup misses. -/
def missStore : CacheStore :=
  { get := fun _ => CacheGetResult.miss
    setFails := false }

/-- A store already holding `cachedResponse` under the given request's
fingerprint. -/
def hitStoreFor (req : ChatRequest) : CacheStore :=
  { get := fun k =>
      if k = generateCacheKey req then CacheGetResult.hit cachedResponse
      else CacheGetResult.miss
    setFails := false }

/-- A non-streaming request whose model matches no prefix rule. -/
def reqLlama : ChatRequest :=
  { model := "llama-70b"
    messages := [{ role := "user", content := "Hello" }]
    temperature := 0
    maxTokens := 0
    stream := false }

/-- A non-streaming request whose model matches the `gpt-` rule. -/
def reqGpt : ChatRequest :=
  { model := "gpt-4"
    messages := [{ role := "user", content := "Hello" }]
    temperature := 0
    maxTokens := 0
    stream := false }

/-- The streaming twin of `reqGpt` (same fields, `stream = true`). -/
def reqGptStream : ChatRequest :=
  { reqGpt with stream := true }

/-- The rate limiter as `main.go` builds it: capacity 100, refill rate
100/60 tokens per second. -/
def mainRateLimiter : RateLimiter :=
  NewRateLimiter 100 (mkRat 100 60)

/-- Router for the unsupported-model scenario: both rule targets
registered, an empty cache store. -/
def rtBothProviders : Router :=
  { providers := [("openai", okBackend), ("anthropic", okBackend)]
    cache := some missStore
    rateLimiter := mainRateLimiter }

/-- Router with no providers registered and `reqLlama`'s response already
cached. -/
def rtNoProvidersCached : Router :=
  { providers := []
    cache := some (hitStoreFor reqLlama)
    rateLimiter := mainRateLimiter }

/-- Router with no providers registered and an empty cache store. -/
def rtNoProviders : Router :=
  { providers := []
    cache := some missStore
    rateLimiter := mainRateLimiter }

/-- Router in the state `main.go` produces when the startup Redis ping
fails: providers registered, but `redisCache == nil`. -/
def rtNilCache : Router :=
  { providers := [("openai", okBackend)]
    cache := none
    rateLimiter := mainRateLimiter }

/-- Router holding the cached response of non-streaming `reqGpt`, used to
show that the streaming twin bypasses the cache. -/
def rtStreamCached : Router :=
  { providers := [("openai", okBackend)]
    cache := some (hitStoreFor reqGpt)
    rateLimiter := mainRateLimiter }

end Gateway

namespace Gateway

theorem goTrunc_zero : goTrunc 0 = 0 := by
  simp [goTrunc]

theorem goTrunc_eq_floor {q : ℚ} (h : 0 ≤ q) : goTrunc q = ⌊q⌋ := by
  simp [goTrunc, h]

/-- Refilling at the very timestamp of the last refill changes nothing. -/
theorem refill_self (tb : TokenBucket) : tb.refill tb.lastRefill = tb := by
  simp [TokenBucket.refill, goTrunc_zero]

/-- Overwriting the token count of a just-refilled bucket yields a bucket
on which refilling again at the same timestamp changes nothing: either the
first refill advanced `lastRefill` to `now` (zero elapsed time), or the
computed addition was already nonpositive and only depends on fields the
overwrite keeps. -/
theorem refill_set_tokens_fix (tb : TokenBucket) (now : ℚ) (t : ℤ) :
    TokenBucket.refill { tb.refill now with tokens := t } now
      = { tb.refill now with tokens := t } := by
  by_cases h : 0 < goTrunc ((now - tb.lastRefill) * tb.refillRate)
  · have h1 : tb.refill now
        = { tb with
            tokens := min (tb.tokens + goTrunc ((now - tb.lastRefill) * tb.refillRate)) tb.capacity
            lastRefill := now } := by
      unfold TokenBucket.refill
      rw [if_pos h]
    rw [h1]
    unfold TokenBucket.refill
    simp [goTrunc_zero]
  · have h1 : tb.refill now = tb := by
      unfold TokenBucket.refill
      rw [if_neg h]
    rw [h1]
    unfold TokenBucket.refill
    simp [h]

/-- Refill is idempotent at a fixed timestamp. -/
theorem refill_idem (tb : TokenBucket) (now : ℚ) :
    (tb.refill now).refill now = tb.refill now := by
  have h := refill_set_tokens_fix tb now (tb.refill now).tokens
  simpa using h

/-- The bucket left behind by `Allow` is the refilled bucket with only its
token count overwritten. -/
theorem Allow_snd_shape (tb : TokenBucket) (now : ℚ) (c : ℤ) :
    (tb.Allow now c).2
      = { tb.refill now with tokens := (tb.Allow now c).2.tokens } := by
  unfold TokenBucket.Allow
  by_cases h : c ≤ (tb.refill now).tokens
  · simp [h]
  · simp [h]

/-- Refilling again at the same timestamp after an `Allow` changes
nothing. -/
theorem refill_allow_fix (tb : TokenBucket) (now : ℚ) (c : ℤ) :
    ((tb.Allow now c).2).refill now = (tb.Allow now c).2 := by
  rw [Allow_snd_shape tb now c]
  exact refill_set_tokens_fix tb now _

/-- C6: refill computes `tokensToAdd = floor(elapsedSeconds * refillRate)`,
adds tokens only when that is positive, clamps the count to capacity, and
advances `lastRefill` only when tokens were actually added; with capacity 2
and refill rate 1/10 tokens per second, after both tokens are consumed an
`Allow(1)` one second later rejects (`floor(1/10) = 0`) while one ten
seconds later admits (`floor(1) = 1 ≥ 1`). -/
theorem C6_refill_floor_formula :
    (∀ (tb : TokenBucket) (now : ℚ), tb.lastRefill ≤ now → 0 ≤ tb.refillRate →
      ((tb.refill now).tokens =
          if 0 < ⌊(now - tb.lastRefill) * tb.refillRate⌋ then
            min (tb.tokens + ⌊(now - tb.lastRefill) * tb.refillRate⌋) tb.capacity
          else tb.tokens)
        ∧ ((tb.refill now).lastRefill =
            if 0 < ⌊(now - tb.lastRefill) * tb.refillRate⌋ then now
            else tb.lastRefill))
    ∧ ((((NewTokenBucket 2 (mkRat 1 10) 0).Allow 0 1).2.Allow 0 1).2.Allow 1 1).1
        = false
    ∧ ((((NewTokenBucket 2 (mkRat 1 10) 0).Allow 0 1).2.Allow 0 1).2.Allow 10 1).1
        = true := by
  refine ⟨?_, ?_, ?_⟩
  · intro tb now h1 h2
    have hq : 0 ≤ (now - tb.lastRefill) * tb.refillRate :=
      mul_nonneg (by linarith) h2
    have hg : goTrunc ((now - tb.lastRefill) * tb.refillRate)
        = ⌊(now - tb.lastRefill) * tb.refillRate⌋ := goTrunc_eq_floor hq
    simp only [TokenBucket.refill, hg]
    by_cases h : 0 < ⌊(now - tb.lastRefill) * tb.refillRate⌋
    · simp [h]
    · simp [h]
  · simp [NewTokenBucket, TokenBucket.Allow, TokenBucket.refill, goTrunc]
    norm_num [mkRat]
  · simp [NewTokenBucket, TokenBucket.Allow, TokenBucket.refill, goTrunc]
    norm_num [mkRat]

/-- Witness for C6: the refill formula instantiated on the scenario bucket
(capacity 2, rate 1/10, empty, last refilled at 0) observed 10 seconds
later: exactly one token is added. -/
theorem C6_refill_floor_formula_witness :
    (0 : ℚ) ≤ 10 ∧ (0 : ℚ) ≤ mkRat 1 10
      ∧ ((⟨2, 0, mkRat 1 10, 0⟩ : TokenBucket).refill 10).tokens = 1 := by
  refine ⟨by norm_num, by norm_num [mkRat], ?_⟩
  have h := (C6_refill_floor_formula.1 ⟨2, 0, mkRat 1 10, 0⟩ 10
    (by norm_num) (by norm_num [mkRat])).1
  rw [h]
  norm_num [mkRat]

/-- Iterating `Allow(1)` at a fixed timestamp on a bucket holding exactly
`n` tokens admits all `n` calls and drains the bucket to zero. -/
theorem allowN_drain (now : ℚ) :
    ∀ (n : ℕ) (tb : TokenBucket), tb.lastRefill = now → tb.tokens = (n : ℤ) →
      allowN n now tb = (List.replicate n true, { tb with tokens := 0 }) := by
  intro n
  induction n with
  | zero =>
      intro tb h1 h2
      simp only [allowN, List.replicate]
      cases tb
      simp only [Nat.cast_zero] at h2
      simp [h2]
  | succ k ih =>
      intro tb h1 h2
      have hs : tb.refill now = tb := by
        rw [← h1]; exact refill_self tb
      have hle : (1 : ℤ) ≤ tb.tokens := by
        rw [h2]; omega
      have hstep : tb.Allow now 1 = (true, { tb with tokens := tb.tokens - 1 }) := by
        unfold TokenBucket.Allow
        rw [hs, if_pos hle]
      have hrec := ih { tb with tokens := tb.tokens - 1 } h1 (by rw [h2]; push_cast; omega)
      simp only [allowN, hstep, hrec]
      simp [List.replicate]

/-- C7: an `Allow(cost)` admits and pays `cost` exactly when the refilled
token count covers the cost, and otherwise rejects without paying; a fresh
bucket of capacity `C` admits `C` consecutive `Allow(1)` calls with no
elapsed time, draining to 0 tokens, and the `(C+1)`-th call rejects and
leaves the count at 0. -/
theorem C7_allow_consume_semantics :
    (∀ (tb : TokenBucket) (now : ℚ) (cost : ℤ),
        ((tb.Allow now cost).1 = true ↔ cost ≤ (tb.refill now).tokens)
      ∧ (tb.Allow now cost).2.tokens =
          (if cost ≤ (tb.refill now).tokens then (tb.refill now).tokens - cost
           else (tb.refill now).tokens))
    ∧ (∀ (C : ℕ) (rate t0 : ℚ),
        (allowN C t0 (NewTokenBucket (C : ℤ) rate t0)).1 = List.replicate C true
      ∧ (allowN C t0 (NewTokenBucket (C : ℤ) rate t0)).2.tokens = 0
      ∧ ((allowN C t0 (NewTokenBucket (C : ℤ) rate t0)).2.Allow t0 1).1 = false
      ∧ ((allowN C t0 (NewTokenBucket (C : ℤ) rate t0)).2.Allow t0 1).2.tokens
          = 0) := by
  constructor
  · intro tb now cost
    unfold TokenBucket.Allow
    by_cases h : cost ≤ (tb.refill now).tokens
    · simp [h]
    · simp [h]
  · intro C rate t0
    have hd := allowN_drain t0 C (NewTokenBucket (C : ℤ) rate t0) rfl rfl
    have hfb : (allowN C t0 (NewTokenBucket (C : ℤ) rate t0)).2
        = { NewTokenBucket (C : ℤ) rate t0 with tokens := 0 } := by
      rw [hd]
    have hlast : ({ NewTokenBucket (C : ℤ) rate t0 with tokens := 0 }
        : TokenBucket).lastRefill = t0 := rfl
    have hs : ({ NewTokenBucket (C : ℤ) rate t0 with tokens := 0 }
        : TokenBucket).refill t0
        = { NewTokenBucket (C : ℤ) rate t0 with tokens := 0 } := by
      rw [← hlast]; exact refill_self _
    refine ⟨by rw [hd], by rw [hd], ?_, ?_⟩
    · rw [hfb]
      unfold TokenBucket.Allow
      rw [hs]
      norm_num
    · rw [hfb]
      unfold TokenBucket.Allow
      rw [hs]
      norm_num

/-- Refill keeps the token count within `[0, capacity]` and never changes
the capacity. -/
theorem refill_bounds (tb : TokenBucket) (now : ℚ)
    (h0 : 0 ≤ tb.tokens) (hc : tb.tokens ≤ tb.capacity) :
    0 ≤ (tb.refill now).tokens
      ∧ (tb.refill now).tokens ≤ (tb.refill now).capacity
      ∧ (tb.refill now).capacity = tb.capacity := by
  unfold TokenBucket.refill
  by_cases h : 0 < goTrunc ((now - tb.lastRefill) * tb.refillRate)
  · simp only [h, if_true]
    refine ⟨le_min (by omega) (by omega), min_le_right _ _, trivial⟩
  · simp only [h, if_false]
    exact ⟨h0, hc, trivial⟩

/-- An `Allow` with nonnegative cost keeps the token count within
`[0, capacity]` and never changes the capacity. -/
theorem allow_bounds (tb : TokenBucket) (now : ℚ) (c : ℤ) (hcost : 0 ≤ c)
    (h0 : 0 ≤ tb.tokens) (hc : tb.tokens ≤ tb.capacity) :
    0 ≤ (tb.Allow now c).2.tokens
      ∧ (tb.Allow now c).2.tokens ≤ (tb.Allow now c).2.capacity
      ∧ (tb.Allow now c).2.capacity = tb.capacity := by
  obtain ⟨hr0, hrc, hrcap⟩ := refill_bounds tb now h0 hc
  unfold TokenBucket.Allow
  by_cases h : c ≤ (tb.refill now).tokens
  · simp only [h, if_true]
    exact ⟨by omega, by simp; omega, hrcap⟩
  · simp only [h, if_false]
    exact ⟨hr0, hrc, hrcap⟩

/-- Any sequence of nonnegative-cost calls keeps the token count within
`[0, capacity]` and never changes the capacity. -/
theorem runOps_bounds :
    ∀ (ops : List BucketOp) (tb : TokenBucket), (∀ op ∈ ops, costNonneg op) →
      0 ≤ tb.tokens → tb.tokens ≤ tb.capacity →
      0 ≤ (runOps ops tb).tokens
        ∧ (runOps ops tb).tokens ≤ (runOps ops tb).capacity
        ∧ (runOps ops tb).capacity = tb.capacity := by
  intro ops
  induction ops with
  | nil =>
      intro tb _ h0 hc
      exact ⟨h0, hc, rfl⟩
  | cons op rest ih =>
      intro tb hops h0 hc
      have hop := hops op (List.mem_cons_self op rest)
      have hrest : ∀ o ∈ rest, costNonneg o := fun o ho =>
        hops o (List.mem_cons_of_mem op ho)
      cases op with
      | allow now c =>
          have hcost : 0 ≤ c := hop
          obtain ⟨h0', hc', hcap'⟩ := allow_bounds tb now c hcost h0 hc
          obtain ⟨r0, rc, rcap⟩ := ih (tb.Allow now c).2 hrest h0' (by omega)
          exact ⟨r0, rc, by rw [runOps]; omega⟩
      | available now =>
          have hav : (tb.Available now).2 = tb.refill now := rfl
          obtain ⟨h0', hc', hcap'⟩ := refill_bounds tb now h0 hc
          obtain ⟨r0, rc, rcap⟩ := ih (tb.Available now).2
            hrest (by rw [hav]; exact h0') (by rw [hav]; omega)
          refine ⟨r0, rc, ?_⟩
          rw [runOps, rcap, hav, hcap']

/-- Counterexample to C8 as stated: the claim quantifies over every
sequence of `Allow` calls, but `Allow` accepts any `int64` cost; a negative
cost is a refund, driving the count above capacity (and a bucket created
with negative capacity starts below zero). -/
theorem C8_counterexample :
    ((NewTokenBucket 2 1 0).Allow 0 (-1)).2.tokens = 3
  ∧ ((NewTokenBucket 2 1 0).Allow 0 (-1)).2.capacity = 2
  ∧ ¬(((NewTokenBucket 2 1 0).Allow 0 (-1)).2.tokens
        ≤ ((NewTokenBucket 2 1 0).Allow 0 (-1)).2.capacity)
  ∧ (NewTokenBucket (-5) 1 0).tokens = -5
  ∧ (NewTokenBucket (-5) 1 0).tokens < 0 := by
  have hs : (NewTokenBucket 2 1 0).refill 0 = NewTokenBucket 2 1 0 :=
    refill_self _
  have ha : (NewTokenBucket 2 1 0).Allow 0 (-1)
      = (true, { NewTokenBucket 2 1 0 with tokens := 3 }) := by
    unfold TokenBucket.Allow
    rw [hs]
    norm_num [NewTokenBucket]
  rw [ha]
  refine ⟨rfl, rfl, by norm_num [NewTokenBucket], rfl, by norm_num [NewTokenBucket]⟩

/-- C8 amended: for every bucket created by `NewTokenBucket` with
nonnegative capacity and every sequence of `Allow` and `Available` calls
whose costs are nonnegative (the dispatcher only ever uses cost 1), the
token count never exceeds the capacity and never falls below zero. -/
theorem C8_amended_tokens_bounded (cap : ℤ) (rate t0 : ℚ)
    (ops : List BucketOp) (hcap : 0 ≤ cap)
    (hops : ∀ op ∈ ops, costNonneg op) :
    0 ≤ (runOps ops (NewTokenBucket cap rate t0)).tokens
      ∧ (runOps ops (NewTokenBucket cap rate t0)).tokens ≤ cap := by
  obtain ⟨r0, rc, rcap⟩ := runOps_bounds ops (NewTokenBucket cap rate t0)
    hops hcap (le_refl cap)
  have hcapr : (runOps ops (NewTokenBucket cap rate t0)).capacity = cap := by
    rw [rcap]
    rfl
  exact ⟨r0, le_trans rc (le_of_eq hcapr)⟩

/-- Witness for C8 amended: a concrete mixed call sequence on a capacity-2
bucket stays within bounds. -/
theorem C8_amended_tokens_bounded_witness :
    (0 : ℤ) ≤ 2
  ∧ (∀ op ∈ [BucketOp.allow 0 1, BucketOp.available 5, BucketOp.allow 5 2],
      costNonneg op)
  ∧ (0 ≤ (runOps [BucketOp.allow 0 1, BucketOp.available 5, BucketOp.allow 5 2]
        (NewTokenBucket 2 1 0)).tokens
    ∧ (runOps [BucketOp.allow 0 1, BucketOp.available 5, BucketOp.allow 5 2]
        (NewTokenBucket 2 1 0)).tokens ≤ 2) := by
  refine ⟨by norm_num, ?_, ?_⟩
  · intro op hop
    simp only [List.mem_cons, List.not_mem_nil, or_false] at hop
    rcases hop with h | h | h <;> subst h <;> simp [costNonneg]
  · exact C8_amended_tokens_bounded 2 1 0 _ (by norm_num)
      (by
        intro op hop
        simp only [List.mem_cons, List.not_mem_nil, or_false] at hop
        rcases hop with h | h | h <;> subst h <;> simp [costNonneg])

/-- Storing a bucket makes it the one subsequent lookups find. -/
theorem lookupBucket_storeBucket (bs : List (String × TokenBucket))
    (uid : String) (b : TokenBucket) :
    lookupBucket (storeBucket bs uid b) uid = some b := by
  induction bs with
  | nil => simp [storeBucket, lookupBucket]
  | cons hd tl ih =>
      obtain ⟨k, b0⟩ := hd
      by_cases h : k = uid
      · simp [storeBucket, lookupBucket, h]
      · simp [storeBucket, lookupBucket, h, ih]

/-- Storing back the bucket a lookup already found changes nothing. -/
theorem storeBucket_lookup_self (bs : List (String × TokenBucket))
    (uid : String) (b : TokenBucket) (h : lookupBucket bs uid = some b) :
    storeBucket bs uid b = bs := by
  induction bs with
  | nil => simp [lookupBucket] at h
  | cons hd tl ih =>
      obtain ⟨k, b0⟩ := hd
      by_cases hk : k = uid
      · subst hk
        simp only [lookupBucket, if_pos rfl] at h
        injection h with h2
        subst h2
        simp [storeBucket]
      · simp only [lookupBucket, hk, if_false] at h
        simp [storeBucket, hk, ih h]

/-- Iterated `Available` calls are the identity on a bucket that refilling
leaves unchanged. -/
theorem availIter_fix (now : ℚ) :
    ∀ (k : ℕ) (tb : TokenBucket), tb.refill now = tb →
      availIter k now tb = tb := by
  intro k
  induction k with
  | zero => intro tb _; rfl
  | succ n ih =>
      intro tb h
      have hav : (tb.Available now).2 = tb := by
        unfold TokenBucket.Available
        simp [h]
      unfold availIter
      rw [hav, ih tb h]

/-- C10: at a fixed timestamp, refill is idempotent, `Available` consumes
nothing, inserting any number of `Available` calls between two `Allow`
calls changes neither the second decision nor the final bucket, and a
`Stats` call inserted after an `Allow` on the same caller leaves the whole
rate-limiter registry unchanged. -/
theorem C10_available_interleaving_noop :
    (∀ (tb : TokenBucket) (now : ℚ), (tb.refill now).refill now = tb.refill now)
  ∧ (∀ (tb : TokenBucket) (now : ℚ),
      (tb.Available now).1 = (tb.refill now).tokens
        ∧ (tb.Available now).2 = tb.refill now)
  ∧ (∀ (tb : TokenBucket) (now : ℚ) (c₁ c₂ : ℤ) (k : ℕ),
      availIter k now (tb.Allow now c₁).2 = (tb.Allow now c₁).2
        ∧ ((availIter k now (tb.Allow now c₁).2).Allow now c₂
            = ((tb.Allow now c₁).2).Allow now c₂))
  ∧ (∀ (rl : RateLimiter) (now : ℚ) (uid : String) (c₁ : ℤ),
      (((rl.Allow now uid c₁).2).Stats now uid).2 = (rl.Allow now uid c₁).2) := by
  refine ⟨refill_idem, fun tb now => ⟨rfl, rfl⟩, ?_, ?_⟩
  · intro tb now c₁ c₂ k
    have h := availIter_fix now k (tb.Allow now c₁).2 (refill_allow_fix tb now c₁)
    exact ⟨h, by rw [h]⟩
  · intro rl now uid c₁
    have hbuckets : ((rl.Allow now uid c₁).2).buckets
        = storeBucket ((rl.getBucket uid now).2).buckets uid
            (((rl.getBucket uid now).1).Allow now c₁).2 := rfl
    have hlook : lookupBucket ((rl.Allow now uid c₁).2).buckets uid
        = some (((rl.getBucket uid now).1).Allow now c₁).2 := by
      rw [hbuckets]; exact lookupBucket_storeBucket _ _ _
    have hget : ((rl.Allow now uid c₁).2).getBucket uid now
        = ((((rl.getBucket uid now).1).Allow now c₁).2, (rl.Allow now uid c₁).2) := by
      unfold RateLimiter.getBucket
      rw [hlook]
      rfl
    have hfix : ((((rl.getBucket uid now).1).Allow now c₁).2).refill now
        = (((rl.getBucket uid now).1).Allow now c₁).2 :=
      refill_allow_fix _ now c₁
    have hav : ((((rl.getBucket uid now).1).Allow now c₁).2.Available now).2
        = (((rl.getBucket uid now).1).Allow now c₁).2 := by
      unfold TokenBucket.Available
      simp [hfix]
    simp only [RateLimiter.Stats, hget, hav, storeBucket_lookup_self _ _ _ hlook]

/-- Decoding undoes the string encoding, leaving the rest untouched. -/
theorem decStr_encStr (s : String) (rest : List Nat) :
    decStr (encStr s ++ rest) = some (s, rest) := by
  unfold encStr decStr
  simp only [List.cons_append]
  have hlen : s.data.length ≤ (s.data.map Char.toNat ++ rest).length := by
    simp
  rw [if_pos hlen]
  have htake : (s.data.map Char.toNat ++ rest).take s.data.length
      = s.data.map Char.toNat := by
    conv_lhs => rw [← List.length_map s.data Char.toNat]
    exact List.take_left _ _
  have hdrop : (s.data.map Char.toNat ++ rest).drop s.data.length = rest := by
    conv_lhs => rw [← List.length_map s.data Char.toNat]
    exact List.drop_left _ _
  rw [htake, hdrop, List.map_map,
    show (Char.ofNat ∘ Char.toNat) = id from funext Char.ofNat_toNat,
    List.map_id]

/-- Decoding undoes the integer encoding, leaving the rest untouched. -/
theorem decInt_encInt (i : ℤ) (rest : List Nat) :
    decInt (encInt i ++ rest) = some (i, rest) := by
  unfold encInt decInt
  by_cases h : i < 0
  · simp only [h, if_true, List.cons_append, List.nil_append]
    simp only [if_pos rfl, Option.some.injEq, Prod.mk.injEq]
    exact ⟨by omega, trivial⟩
  · simp only [h, if_false, List.cons_append, List.nil_append]
    have h01 : (0 : ℕ) ≠ 1 := by omega
    simp only [if_neg h01, Option.some.injEq, Prod.mk.injEq]
    exact ⟨by omega, trivial⟩

/-- Decoding undoes the rational encoding, leaving the rest untouched. -/
theorem decRat_encRat (q : ℚ) (rest : List Nat) :
    decRat (encRat q ++ rest) = some (q, rest) := by
  unfold encRat decRat
  rw [List.append_assoc, List.cons_append, List.nil_append,
    decInt_encInt q.num (q.den :: rest)]
  simp [Rat.num_div_den]

/-- Decoding undoes the message encoding, leaving the rest untouched. -/
theorem decMsg_encMsg (m : Message) (rest : List Nat) :
    decMsg (encMsg m ++ rest) = some (m, rest) := by
  unfold encMsg decMsg
  rw [List.append_assoc]
  simp only [decStr_encStr]

/-- Decoding undoes the message-list encoding, leaving the rest
untouched. -/
theorem decMsgs_encMsgs (ms : List Message) :
    ∀ rest : List Nat, decMsgs ms.length (encMsgs ms ++ rest) = some (ms, rest) := by
  induction ms with
  | nil =>
      intro rest
      simp [encMsgs, decMsgs]
  | cons m tl ih =>
      intro rest
      simp only [encMsgs, List.length_cons, decMsgs, List.append_assoc,
        decMsg_encMsg, ih]

/-- Decoding undoes the request serialization: every serialized field is
recovered. -/
theorem decRequest_serializeRequest (r : ChatRequest) (rest : List Nat) :
    decRequest (serializeRequest r ++ rest)
      = some ((r.model, r.messages, r.temperature, r.maxTokens), rest) := by
  unfold serializeRequest decRequest
  simp only [List.append_assoc, List.cons_append]
  rw [decStr_encStr]
  simp only [decMsgs_encMsgs, decRat_encRat, decInt_encInt]

/-- The canonical serialization is injective on the four serialized
fields. -/
theorem serializeRequest_inj {r1 r2 : ChatRequest}
    (h : serializeRequest r1 = serializeRequest r2) :
    r1.model = r2.model ∧ r1.messages = r2.messages
      ∧ r1.temperature = r2.temperature ∧ r1.maxTokens = r2.maxTokens := by
  have h1 := decRequest_serializeRequest r1 []
  have h2 := decRequest_serializeRequest r2 []
  rw [h] at h1
  rw [h2] at h1
  simp only [Option.some.injEq, Prod.mk.injEq] at h1
  exact ⟨h1.1.1.symm, h1.1.2.1.symm, h1.1.2.2.1.symm, h1.1.2.2.2.symm⟩

/-- C4: the cache fingerprint is a deterministic digest of the canonical
serialization of all request fields except `stream`: two requests agree on
the fingerprint exactly when they agree on `model`, `messages`,
`temperature` and `max_tokens` — so the `stream` flag never influences the
fingerprint, and changing any one of the serialized fields changes it. -/
theorem C4_fingerprint_determinism :
    ∀ r1 r2 : ChatRequest,
      generateCacheKey r1 = generateCacheKey r2
        ↔ (r1.model = r2.model ∧ r1.messages = r2.messages
            ∧ r1.temperature = r2.temperature ∧ r1.maxTokens = r2.maxTokens) := by
  intro r1 r2
  constructor
  · intro h
    exact serializeRequest_inj h
  · rintro ⟨h1, h2, h3, h4⟩
    unfold generateCacheKey serializeRequest
    rw [h1, h2, h3, h4]

/-- A missing caller identity fails before the rate limiter runs. -/
theorem handle_missing_identity (rt : Router) (now : ℚ)
    (body : Option ChatRequest) :
    HandleChatCompletion rt now "" body
      = (GatewayResult.missingUserID, rt.rateLimiter, []) := by
  unfold HandleChatCompletion
  rw [if_pos rfl]

/-- A rejected admission check terminates the pipeline with only the
rate-limit event in the trace. -/
theorem handle_rate_limited (rt : Router) (now : ℚ) (uid : String)
    (body : Option ChatRequest) (hu : ¬(uid = ""))
    (ha : (rt.rateLimiter.Allow now uid 1).1 = false) :
    HandleChatCompletion rt now uid body
      = (GatewayResult.rateLimited, (rt.rateLimiter.Allow now uid 1).2,
         [Event.rateLimit uid false]) := by
  unfold HandleChatCompletion
  rw [if_neg hu]
  simp only [ha]
  simp

/-- A malformed body is rejected after admission: the rate-limit event is
in the trace and the updated limiter state is kept. -/
theorem handle_malformed (rt : Router) (now : ℚ) (uid : String)
    (hu : ¬(uid = "")) (ha : (rt.rateLimiter.Allow now uid 1).1 = true) :
    HandleChatCompletion rt now uid none
      = (GatewayResult.malformedRequest, (rt.rateLimiter.Allow now uid 1).2,
         [Event.rateLimit uid true]) := by
  unfold HandleChatCompletion
  rw [if_neg hu]
  simp only [ha]
  simp

/-- An unregistered resolved provider is rejected after admission and
before any cache or backend event. -/
theorem handle_unsupported (rt : Router) (now : ℚ) (uid : String)
    (req : ChatRequest) (hu : ¬(uid = ""))
    (ha : (rt.rateLimiter.Allow now uid 1).1 = true)
    (hl : lookupProvider rt.providers (getProviderFromModel req.model) = none) :
    HandleChatCompletion rt now uid (some req)
      = (GatewayResult.unsupportedModel req.model,
         (rt.rateLimiter.Allow now uid 1).2, [Event.rateLimit uid true]) := by
  unfold HandleChatCompletion
  rw [if_neg hu]
  simp only [ha, hl]
  simp

/-- A non-streaming request against the `nil` cache handle reaches the
nil-pointer dereference (the request fails; the backend is never
invoked). -/
theorem handle_nil_cache (rt : Router) (now : ℚ) (uid : String)
    (req : ChatRequest) (backend : Backend) (hu : ¬(uid = ""))
    (ha : (rt.rateLimiter.Allow now uid 1).1 = true)
    (hl : lookupProvider rt.providers (getProviderFromModel req.model)
      = some backend)
    (hs : req.stream = false) (hc : rt.cache = none) :
    HandleChatCompletion rt now uid (some req)
      = (GatewayResult.panicNilCache, (rt.rateLimiter.Allow now uid 1).2,
         [Event.rateLimit uid true]) := by
  unfold HandleChatCompletion
  rw [if_neg hu]
  simp only [ha, hl, hs, hc]
  simp

/-- A cache hit for a non-streaming request with a registered provider
returns the cached response with no backend event. -/
theorem handle_cache_hit (rt : Router) (now : ℚ) (uid : String)
    (req : ChatRequest) (backend : Backend) (store : CacheStore)
    (resp : ChatResponse) (hu : ¬(uid = ""))
    (ha : (rt.rateLimiter.Allow now uid 1).1 = true)
    (hl : lookupProvider rt.providers (getProviderFromModel req.model)
      = some backend)
    (hs : req.stream = false) (hc : rt.cache = some store)
    (hhit : store.get (generateCacheKey req) = CacheGetResult.hit resp) :
    HandleChatCompletion rt now uid (some req)
      = (GatewayResult.ok resp, (rt.rateLimiter.Allow now uid 1).2,
         [Event.rateLimit uid true, Event.cacheGet (generateCacheKey req)]) := by
  unfold HandleChatCompletion
  rw [if_neg hu]
  simp only [ha, hl, hs, hc, hhit]
  simp

/-- A streaming request skips the cache entirely and always invokes the
resolved backend, whatever the cache holds. -/
theorem handle_stream (rt : Router) (now : ℚ) (uid : String)
    (req : ChatRequest) (backend : Backend) (hu : ¬(uid = ""))
    (ha : (rt.rateLimiter.Allow now uid 1).1 = true)
    (hl : lookupProvider rt.providers (getProviderFromModel req.model)
      = some backend)
    (hs : req.stream = true) :
    HandleChatCompletion rt now uid (some req)
      = ((match backend req with
          | Except.error e => GatewayResult.backendError e
          | Except.ok resp => GatewayResult.ok resp),
         (rt.rateLimiter.Allow now uid 1).2,
         [Event.rateLimit uid true,
          Event.backendCall (getProviderFromModel req.model)]) := by
  unfold HandleChatCompletion
  rw [if_neg hu]
  simp only [ha, hl, hs]
  cases hb : backend req with
  | error e => simp [hb]
  | ok resp => simp [hb]

/-- The fresh `main.go` rate limiter admits any caller's first request and
charges it one token: the lazily created bucket holds 99 of 100 tokens. -/
theorem mainAllow_first (uid : String) :
    mainRateLimiter.Allow 0 uid 1
      = (true,
         { buckets := [(uid, ⟨100, 99, mkRat 100 60, 0⟩)]
           defaultCapacity := 100
           defaultRefillRate := mkRat 100 60 }) := by
  have hb : (NewTokenBucket 100 (mkRat 100 60) 0).Allow 0 1
      = (true, ⟨100, 99, mkRat 100 60, 0⟩) := by
    have hr : (NewTokenBucket 100 (mkRat 100 60) 0).refill 0
        = NewTokenBucket 100 (mkRat 100 60) 0 := refill_self _
    unfold TokenBucket.Allow
    rw [hr]
    norm_num [NewTokenBucket]
  simp [mainRateLimiter, NewRateLimiter, RateLimiter.Allow,
    RateLimiter.getBucket, lookupBucket, storeBucket, hb]

/-- On a cache outcome other than a hit (miss or store error alike), a
non-streaming request proceeds to the backend; on backend success the
response is also written back to the cache. -/
theorem handle_cache_miss (rt : Router) (now : ℚ) (uid : String)
    (req : ChatRequest) (backend : Backend) (store : CacheStore)
    (hu : ¬(uid = "")) (ha : (rt.rateLimiter.Allow now uid 1).1 = true)
    (hl : lookupProvider rt.providers (getProviderFromModel req.model)
      = some backend)
    (hs : req.stream = false) (hc : rt.cache = some store)
    (hm : store.get (generateCacheKey req) = CacheGetResult.miss
      ∨ ∃ msg, store.get (generateCacheKey req) = CacheGetResult.storeError msg) :
    HandleChatCompletion rt now uid (some req)
      = ((match backend req with
          | Except.error e => GatewayResult.backendError e
          | Except.ok resp => GatewayResult.ok resp),
         (rt.rateLimiter.Allow now uid 1).2,
         [Event.rateLimit uid true, Event.cacheGet (generateCacheKey req),
          Event.backendCall (getProviderFromModel req.model)]
           ++ (match backend req with
               | Except.error _ => []
               | Except.ok _ => [Event.cacheSet (generateCacheKey req)])) := by
  unfold HandleChatCompletion
  rw [if_neg hu]
  simp only [ha, hl, hs, hc]
  rcases hm with hm | ⟨msg, hm⟩ <;>
    · simp only [hm]
      cases hb : backend req with
      | error e => simp [hb]
      | ok resp => simp [hb]

/-- Counterexample to C1 as stated: with exactly the two prefix rules'
targets registered, a request for `llama-70b` does not return the
unsupported-model error — `getProviderFromModel` falls back to the
hardcoded default `openai`, whose backend is invoked. -/
theorem C1_counterexample :
    (HandleChatCompletion rtBothProviders 0 "u1" (some reqLlama)).1
        = GatewayResult.ok mockResponse
      ∧ Event.backendCall "openai"
          ∈ (HandleChatCompletion rtBothProviders 0 "u1" (some reqLlama)).2.2
      ∧ (HandleChatCompletion rtBothProviders 0 "u1" (some reqLlama)).1
          ≠ GatewayResult.unsupportedModel "llama-70b" := by
  have hprov : getProviderFromModel reqLlama.model = "openai" := by decide
  have ha : (rtBothProviders.rateLimiter.Allow 0 "u1" 1).1 = true := by
    show (mainRateLimiter.Allow 0 "u1" 1).1 = true
    rw [mainAllow_first]
  have hl : lookupProvider rtBothProviders.providers
      (getProviderFromModel reqLlama.model) = some okBackend := by
    rw [hprov]
    simp [rtBothProviders, lookupProvider]
  have h := handle_cache_miss rtBothProviders 0 "u1" reqLlama okBackend
    missStore (by decide) ha hl rfl rfl (Or.inl rfl)
  rw [h, hprov]
  refine ⟨rfl, ?_, by simp [okBackend]⟩
  simp [okBackend]

/-- C1 amended: `getProviderFromModel` never fails to resolve — a model
matching no prefix rule resolves to the hardcoded default `openai`; the
unsupported-model error occurs exactly when the resolved backend name is
not in the provider registry, in which case it is returned after the
admission check with no backend (or cache) event. -/
theorem C1_amended_unsupported_model :
    (∀ m : String,
        ("gpt-".data.isPrefixOf m.data) = false →
        ("claude-".data.isPrefixOf m.data) = false →
        getProviderFromModel m = "openai")
    ∧ (∀ (rt : Router) (now : ℚ) (uid : String) (req : ChatRequest),
        ¬(uid = "") → (rt.rateLimiter.Allow now uid 1).1 = true →
        lookupProvider rt.providers (getProviderFromModel req.model) = none →
        HandleChatCompletion rt now uid (some req)
          = (GatewayResult.unsupportedModel req.model,
             (rt.rateLimiter.Allow now uid 1).2,
             [Event.rateLimit uid true])) := by
  constructor
  · intro m h1 h2
    simp [getProviderFromModel, h1, h2]
  · intro rt now uid req hu ha hl
    exact handle_unsupported rt now uid req hu ha hl

/-- Witness for C1 amended: with an empty provider registry the `llama-70b`
request is rejected as unsupported right after admission. -/
theorem C1_amended_unsupported_model_witness :
    ("gpt-".data.isPrefixOf "llama-70b".data) = false
  ∧ ("claude-".data.isPrefixOf "llama-70b".data) = false
  ∧ getProviderFromModel "llama-70b" = "openai"
  ∧ HandleChatCompletion rtNoProviders 0 "u1" (some reqLlama)
      = (GatewayResult.unsupportedModel "llama-70b",
         (rtNoProviders.rateLimiter.Allow 0 "u1" 1).2,
         [Event.rateLimit "u1" true]) := by
  refine ⟨by decide, by decide,
    C1_amended_unsupported_model.1 "llama-70b" (by decide) (by decide), ?_⟩
  have ha : (rtNoProviders.rateLimiter.Allow 0 "u1" 1).1 = true := by
    show (mainRateLimiter.Allow 0 "u1" 1).1 = true
    rw [mainAllow_first]
  have hl : lookupProvider rtNoProviders.providers
      (getProviderFromModel reqLlama.model) = none := by
    simp [rtNoProviders, lookupProvider]
  exact C1_amended_unsupported_model.2 rtNoProviders 0 "u1" reqLlama
    (by decide) ha hl

/-- Counterexample to C2 as stated: routing is consulted before the cache,
so a non-streaming request whose fingerprint is cached but whose resolved
backend is unregistered returns the unsupported-model error instead of the
cached response — the cache is never even read. -/
theorem C2_counterexample :
    (hitStoreFor reqLlama).get (generateCacheKey reqLlama)
        = CacheGetResult.hit cachedResponse
  ∧ (HandleChatCompletion rtNoProvidersCached 0 "u1" (some reqLlama)).1
      = GatewayResult.unsupportedModel "llama-70b"
  ∧ (HandleChatCompletion rtNoProvidersCached 0 "u1" (some reqLlama)).1
      ≠ GatewayResult.ok cachedResponse
  ∧ (∀ k, Event.cacheGet k
      ∉ (HandleChatCompletion rtNoProvidersCached 0 "u1" (some reqLlama)).2.2) := by
  have ha : (rtNoProvidersCached.rateLimiter.Allow 0 "u1" 1).1 = true := by
    show (mainRateLimiter.Allow 0 "u1" 1).1 = true
    rw [mainAllow_first]
  have hl : lookupProvider rtNoProvidersCached.providers
      (getProviderFromModel reqLlama.model) = none := by
    simp [rtNoProvidersCached, lookupProvider]
  have h := handle_unsupported rtNoProvidersCached 0 "u1" reqLlama
    (by decide) ha hl
  rw [h]
  refine ⟨by simp [hitStoreFor], rfl, by simp, ?_⟩
  intro k
  simp

/-- C2 amended: routing resolution runs for every admitted, well-formed
request — strictly after the admission check and strictly before the cache
lookup and any backend contact.  An unresolvable model fails before any
cache or backend event; a cache hit for a resolvable model returns the
cached response with no backend event; a rejected admission stops before
routing and cache. -/
theorem C2_amended_routing_order :
    (∀ (rt : Router) (now : ℚ) (uid : String) (req : ChatRequest),
        ¬(uid = "") → (rt.rateLimiter.Allow now uid 1).1 = true →
        lookupProvider rt.providers (getProviderFromModel req.model) = none →
        HandleChatCompletion rt now uid (some req)
          = (GatewayResult.unsupportedModel req.model,
             (rt.rateLimiter.Allow now uid 1).2, [Event.rateLimit uid true]))
    ∧ (∀ (rt : Router) (now : ℚ) (uid : String) (req : ChatRequest)
          (backend : Backend) (store : CacheStore) (resp : ChatResponse),
        ¬(uid = "") → (rt.rateLimiter.Allow now uid 1).1 = true →
        lookupProvider rt.providers (getProviderFromModel req.model)
          = some backend →
        req.stream = false → rt.cache = some store →
        store.get (generateCacheKey req) = CacheGetResult.hit resp →
        HandleChatCompletion rt now uid (some req)
          = (GatewayResult.ok resp, (rt.rateLimiter.Allow now uid 1).2,
             [Event.rateLimit uid true,
              Event.cacheGet (generateCacheKey req)]))
    ∧ (∀ (rt : Router) (now : ℚ) (uid : String) (body : Option ChatRequest),
        ¬(uid = "") → (rt.rateLimiter.Allow now uid 1).1 = false →
        HandleChatCompletion rt now uid body
          = (GatewayResult.rateLimited, (rt.rateLimiter.Allow now uid 1).2,
             [Event.rateLimit uid false])) := by
  exact ⟨handle_unsupported, handle_cache_hit, handle_rate_limited⟩

/-- Witness for C2 amended: a cache hit on `gpt-4` with `openai` registered
returns the cached response with no backend event. -/
theorem C2_amended_routing_order_witness :
    (hitStoreFor reqGpt).get (generateCacheKey reqGpt)
        = CacheGetResult.hit cachedResponse
  ∧ HandleChatCompletion rtStreamCached 0 "u1" (some reqGpt)
      = (GatewayResult.ok cachedResponse,
         (rtStreamCached.rateLimiter.Allow 0 "u1" 1).2,
         [Event.rateLimit "u1" true,
          Event.cacheGet (generateCacheKey reqGpt)]) := by
  have hhit : (hitStoreFor reqGpt).get (generateCacheKey reqGpt)
      = CacheGetResult.hit cachedResponse := by
    simp [hitStoreFor]
  have ha : (rtStreamCached.rateLimiter.Allow 0 "u1" 1).1 = true := by
    show (mainRateLimiter.Allow 0 "u1" 1).1 = true
    rw [mainAllow_first]
  have hprov : getProviderFromModel reqGpt.model = "openai" := by decide
  have hl : lookupProvider rtStreamCached.providers
      (getProviderFromModel reqGpt.model) = some okBackend := by
    rw [hprov]
    simp [rtStreamCached, lookupProvider]
  exact ⟨hhit, C2_amended_routing_order.2.1 rtStreamCached 0 "u1" reqGpt
    okBackend (hitStoreFor reqGpt) cachedResponse (by decide) ha hl rfl rfl hhit⟩

/-- Counterexample to C3 as stated: the source calls the rate limiter
before parsing the body, so a malformed request does consume a token — the
caller's lazily created bucket ends at 99 of 100 tokens and the rate-limit
event is in the trace. -/
theorem C3_counterexample :
    (HandleChatCompletion rtNoProviders 0 "u1" none).1
        = GatewayResult.malformedRequest
  ∧ Event.rateLimit "u1" true
      ∈ (HandleChatCompletion rtNoProviders 0 "u1" none).2.2
  ∧ lookupBucket (HandleChatCompletion rtNoProviders 0 "u1" none).2.1.buckets "u1"
      = some ⟨100, 99, mkRat 100 60, 0⟩ := by
  have ha : (rtNoProviders.rateLimiter.Allow 0 "u1" 1).1 = true := by
    show (mainRateLimiter.Allow 0 "u1" 1).1 = true
    rw [mainAllow_first]
  have h := handle_malformed rtNoProviders 0 "u1" (by decide) ha
  rw [h]
  refine ⟨rfl, by simp, ?_⟩
  show lookupBucket (mainRateLimiter.Allow 0 "u1" 1).2.buckets "u1"
    = some ⟨100, 99, mkRat 100 60, 0⟩
  rw [mainAllow_first]
  simp [lookupBucket]

/-- C3 amended: a malformed body is rejected before the routing, cache and
backend stages, but after the identity check and the admission check — the
rate limiter is consulted and the request pays one token. -/
theorem C3_amended_malformed_after_admission
    (rt : Router) (now : ℚ) (uid : String)
    (hu : ¬(uid = "")) (ha : (rt.rateLimiter.Allow now uid 1).1 = true) :
    HandleChatCompletion rt now uid none
      = (GatewayResult.malformedRequest, (rt.rateLimiter.Allow now uid 1).2,
         [Event.rateLimit uid true]) := by
  exact handle_malformed rt now uid hu ha

/-- Witness for C3 amended: the concrete malformed request against the
fresh `main.go` limiter. -/
theorem C3_amended_malformed_after_admission_witness :
    ¬(("u1" : String) = "")
  ∧ (rtNoProviders.rateLimiter.Allow 0 "u1" 1).1 = true
  ∧ HandleChatCompletion rtNoProviders 0 "u1" none
      = (GatewayResult.malformedRequest,
         (rtNoProviders.rateLimiter.Allow 0 "u1" 1).2,
         [Event.rateLimit "u1" true]) := by
  have ha : (rtNoProviders.rateLimiter.Allow 0 "u1" 1).1 = true := by
    show (mainRateLimiter.Allow 0 "u1" 1).1 = true
    rw [mainAllow_first]
  exact ⟨by decide, ha,
    C3_amended_malformed_after_admission rtNoProviders 0 "u1" (by decide) ha⟩

/-- C5 at the failing input: with the `nil` cache handle `main.go` installs
when the startup Redis ping fails, an admitted, well-formed, non-streaming
`gpt-4` request hits the nil-pointer dereference in `r.cache.Get` — the
request fails and the registered backend is never invoked, instead of
degrading to a provider call as the spec requires. -/
theorem C5_nil_cache_panics :
    rtNilCache.cache = none
  ∧ (HandleChatCompletion rtNilCache 0 "u1" (some reqGpt)).1
      = GatewayResult.panicNilCache
  ∧ (∀ p, Event.backendCall p
      ∉ (HandleChatCompletion rtNilCache 0 "u1" (some reqGpt)).2.2) := by
  have ha : (rtNilCache.rateLimiter.Allow 0 "u1" 1).1 = true := by
    show (mainRateLimiter.Allow 0 "u1" 1).1 = true
    rw [mainAllow_first]
  have hprov : getProviderFromModel reqGpt.model = "openai" := by decide
  have hl : lookupProvider rtNilCache.providers
      (getProviderFromModel reqGpt.model) = some okBackend := by
    rw [hprov]
    simp [rtNilCache, lookupProvider]
  have h := handle_nil_cache rtNilCache 0 "u1" reqGpt okBackend
    (by decide) ha hl rfl rfl
  rw [h]
  refine ⟨rfl, rfl, ?_⟩
  intro p
  simp

/-- C9: an admitted streaming request with a resolvable model produces no
cache read and no cache write, and always invokes the resolved backend —
whatever the cache store holds. -/
theorem C9_streaming_no_cache (rt : Router) (now : ℚ) (uid : String)
    (req : ChatRequest) (backend : Backend)
    (hu : ¬(uid = "")) (ha : (rt.rateLimiter.Allow now uid 1).1 = true)
    (hl : lookupProvider rt.providers (getProviderFromModel req.model)
      = some backend)
    (hs : req.stream = true) :
    (∀ k, Event.cacheGet k
        ∉ (HandleChatCompletion rt now uid (some req)).2.2
      ∧ Event.cacheSet k
        ∉ (HandleChatCompletion rt now uid (some req)).2.2)
  ∧ Event.backendCall (getProviderFromModel req.model)
      ∈ (HandleChatCompletion rt now uid (some req)).2.2 := by
  have h := handle_stream rt now uid req backend hu ha hl hs
  rw [h]
  refine ⟨fun k => ⟨by simp, by simp⟩, by simp⟩

/-- Witness for C9: the streaming twin of `gpt-4` is dispatched to the
backend even though the cache already holds an entry under its very
fingerprint (the fingerprint ignores `stream`, so the non-streaming twin's
entry matches). -/
theorem C9_streaming_no_cache_witness :
    (hitStoreFor reqGpt).get (generateCacheKey reqGptStream)
        = CacheGetResult.hit cachedResponse
  ∧ ((∀ k, Event.cacheGet k
        ∉ (HandleChatCompletion rtStreamCached 0 "u1" (some reqGptStream)).2.2
      ∧ Event.cacheSet k
        ∉ (HandleChatCompletion rtStreamCached 0 "u1" (some reqGptStream)).2.2)
    ∧ Event.backendCall (getProviderFromModel reqGptStream.model)
        ∈ (HandleChatCompletion rtStreamCached 0 "u1" (some reqGptStream)).2.2) := by
  have hkey : generateCacheKey reqGptStream = generateCacheKey reqGpt := rfl
  have hhit : (hitStoreFor reqGpt).get (generateCacheKey reqGptStream)
      = CacheGetResult.hit cachedResponse := by
    rw [hkey]
    simp [hitStoreFor]
  have ha : (rtStreamCached.rateLimiter.Allow 0 "u1" 1).1 = true := by
    show (mainRateLimiter.Allow 0 "u1" 1).1 = true
    rw [mainAllow_first]
  have hprov : getProviderFromModel reqGptStream.model = "openai" := by decide
  have hl : lookupProvider rtStreamCached.providers
      (getProviderFromModel reqGptStream.model) = some okBackend := by
    rw [hprov]
    simp [rtStreamCached, lookupProvider]
  exact ⟨hhit, C9_streaming_no_cache rtStreamCached 0 "u1" reqGptStream
    okBackend (by decide) ha hl rfl⟩

end Gateway
